import Mathlib

/-!
# Verification of the streamlit-markdown image store and render cache

A shallow embedding of `streamlit_markdown/image_handler.py` and the
cache/transmission logic of `streamlit_markdown/__init__.py`.

Modelling conventions:
* Byte strings are `List Nat` (each entry one byte value).
* The filesystem is a finite map from path strings to byte contents
  (`FS`, an association list); directory creation is a no-op, writes
  replace, deletion removes the key.  All entries are regular files.
* Paths are plain strings.  `Path.name`, `Path.suffix`, the `/` join
  operator and `str.split`/`startswith` are modelled character by
  character below.  `Path.resolve()` depends on the process working
  directory, so it is a parameter `resolve : String → String` of every
  operation that calls it.
* `hashlib.md5(...).hexdigest()` and `base64.b64decode` are external
  library calls; the embedding is parametric in them
  (`hashB : List Nat → String`, `hashS : String → String`,
  `b64dec : String → Option (List Nat)`).  `base64.b64encode` is
  implemented concretely.
* `datetime.now().strftime(...)` is a clock read; it is a parameter
  `ts : String` of `save_image`.
-/

set_option maxHeartbeats 1000000

/-! ## Character-level string utilities (models of Python str/Path ops) -/

/-- Model of Python `haystack.startswith(needle)`. -/
def strStartsWith (s pre : String) : Bool :=
  pre.data.isPrefixOf s.data

/-- Model of Python `s[:n]` on strings. -/
def strTake (n : Nat) (s : String) : String :=
  ⟨s.data.take n⟩

/-- Model of Python `s.lower()`. -/
def strToLower (s : String) : String :=
  ⟨s.data.map Char.toLower⟩

/-- Split a character list at the first occurrence of `stop`:
returns the characters before it and the characters after it, or
`none` when `stop` does not occur. -/
def takeUntil (stop : Char) : List Char → Option (List Char × List Char)
  | [] => none
  | c :: tl =>
    if c = stop then some ([], tl)
    else
      match takeUntil stop tl with
      | some pr => some (c :: pr.1, pr.2)
      | none => none

/-- Model of Python `s.split(",", 1)` when used with two-element
unpacking: `some (before, after)` at the first comma, `none` when the
string has no comma (the unpacking raises `ValueError`). -/
def splitFirstComma (s : String) : Option (String × String) :=
  match takeUntil ',' s.data with
  | some pr => some (⟨pr.1⟩, ⟨pr.2⟩)
  | none => none

/-- Model of Python `needle in haystack` for strings. -/
def containsSubL (needle : List Char) : List Char → Bool
  | [] => needle.isEmpty
  | h :: tl => needle.isPrefixOf (h :: tl) || containsSubL needle tl

/-- Model of Python `needle in haystack` for strings. -/
def strContainsSub (hay needle : String) : Bool :=
  containsSubL needle.data hay.data

/-- Split a character list on `'/'` into components (like
`"a/b".split("/")`, used to model `pathlib` name extraction). -/
def splitSlash : List Char → List (List Char)
  | [] => [[]]
  | c :: tl =>
    let r := splitSlash tl
    if c = '/' then [] :: r
    else
      match r with
      | [] => [[c]]
      | h :: t => (c :: h) :: t

/-- Model of `pathlib.Path(p).name` on character lists: the last
path component, ignoring empty components and `"."` components
(pathlib drops both when parsing). -/
def pathNameL (l : List Char) : List Char :=
  ((splitSlash l).filter (fun c => !(c == []) && !(c == ['.']))).getLastD []

/-- Model of `pathlib.Path(p).name`. -/
def pathName (p : String) : String :=
  ⟨pathNameL p.data⟩

/-- The characters of `l` from its last `'.'` (inclusive), or `none`
when `l` has no `'.'`. -/
def takeAfterLastDot : List Char → Option (List Char)
  | [] => none
  | c :: tl =>
    match takeAfterLastDot tl with
    | some s => some s
    | none => if c = '.' then some (c :: tl) else none

/-- Model of `pathlib.Path(p).suffix` on the name's characters:
CPython returns `name[i:]` for `i = name.rfind('.')` exactly when
`0 < i < len(name) - 1`, else the empty suffix. -/
def suffixOfL (l : List Char) : List Char :=
  let n := pathNameL l
  match takeAfterLastDot n with
  | some s => if s.length < n.length ∧ 1 < s.length then s else []
  | none => []

/-- Model of `pathlib.Path(p).suffix`. -/
def suffixOf (p : String) : String :=
  ⟨suffixOfL p.data⟩

/-- Model of `str(pathlib.Path(a) / b)`. -/
def pathJoin (a b : String) : String :=
  if b = "" then a
  else if strStartsWith b "/" then b
  else if a = "" ∨ a = "." then b
  else a ++ "/" ++ b

/-! ## Filesystem model -/

/-- A flat filesystem: a finite map from path strings to byte
contents.  Every entry is a regular file. -/
structure FS where
  files : List (String × List Nat)
deriving DecidableEq

/-- First-match association lookup (Python `dict` semantics: at most
one binding per key is observable). -/
def lookupKV {α : Type} : List (String × α) → String → Option α
  | [], _ => none
  | (k, v) :: tl, q => if k = q then some v else lookupKV tl q

def FS.lookup (fs : FS) (p : String) : Option (List Nat) :=
  lookupKV fs.files p

/-- Model of `Path(p).write_bytes(d)`: replaces any existing file. -/
def FS.write (fs : FS) (p : String) (d : List Nat) : FS :=
  ⟨(p, d) :: fs.files.filter (fun e => !(e.1 == p))⟩

/-- Model of `Path(p).unlink()`. -/
def FS.erase (fs : FS) (p : String) : FS :=
  ⟨fs.files.filter (fun e => !(e.1 == p))⟩

def FS.empty : FS := ⟨[]⟩

/-! ## ImageHandler.save_image (image_handler.py lines 54-92) -/

/-- `ImageHandler.save_image`.  `hashB` models
`hashlib.md5(·).hexdigest()`; `ts` models
`datetime.now().strftime("%Y%m%d_%H%M%S")`; `storage` is
`self.storage_path`.  Returns the path string the Python function
returns, together with the updated filesystem. -/
def save_image (hashB : List Nat → String) (fs : FS) (storage : String)
    (image_data : List Nat) (filename : Option String) (extension ts : String) :
    String × FS :=
  let generated := "img_" ++ ts ++ "_" ++ strTake 12 (hashB image_data) ++ extension
  let fname :=
    match filename with
    | none => generated
    | some f => if f = "" then generated else f
  let fname2 := if suffixOf fname = "" then fname ++ extension else fname
  let path := pathJoin storage fname2
  (path, fs.write path image_data)

/-! ## ImageHandler.get_image (lines 137-164) -/

/-- `ImageHandler.get_image`: try the path as given, then relative to
the storage path; `none` when neither exists. -/
def get_image (fs : FS) (storage path : String) : Option (List Nat) :=
  match fs.lookup path with
  | some b => some b
  | none => fs.lookup (pathJoin storage path)

/-! ## Basic map lemmas -/

theorem lookupKV_write_self (fs : FS) (p : String) (d : List Nat) :
    (fs.write p d).lookup p = some d := by
  simp [FS.write, FS.lookup, lookupKV]

theorem lookupKV_filter_ne {α : Type} (l : List (String × α)) (p q : String)
    (h : p ≠ q) :
    lookupKV (l.filter (fun e => !(e.1 == p))) q = lookupKV l q := by
  induction l with
  | nil => rfl
  | cons e tl ih =>
    obtain ⟨k, v⟩ := e
    by_cases hk : k = p
    · subst hk
      simp [List.filter_cons, lookupKV, h, ih]
    · simp [List.filter_cons, lookupKV, hk, ih]

theorem FS.lookup_erase_ne (fs : FS) (p q : String) (h : p ≠ q) :
    (fs.erase p).lookup q = fs.lookup q := by
  simpa [FS.erase, FS.lookup] using lookupKV_filter_ne fs.files p q h

theorem FS.write_write (fs : FS) (p : String) (d : List Nat) :
    (fs.write p d).write p d = fs.write p d := by
  simp [FS.write, List.filter_filter]

/-! ## Markdown image reference extraction (lines 32, 196-211)

Model of one attempt of the regex `!\[([^\]]*)\]\(([^)]+)\)` at the
head of the input.  The negated character classes cannot cross their
closing delimiter, so the regex deterministically matches the
characters up to the first `]` (alt text, possibly empty) and up to
the first `)` (target, at least one character), with no backtracking
alternatives. -/
def tryMatchAt : List Char → Option (String × String × List Char)
  | '!' :: '[' :: rest =>
    match takeUntil ']' rest with
    | some (alt, rest1) =>
      match rest1 with
      | '(' :: rest2 =>
        match takeUntil ')' rest2 with
        | some (tgt, rest3) =>
          if tgt = [] then none else some (⟨alt⟩, ⟨tgt⟩, rest3)
        | none => none
      | _ => none
    | none => none
  | _ => none

/-- Left-to-right non-overlapping scan (the semantics of
`re.findall`): attempt a match at each position; on success continue
after the match, on failure advance one character.  `fuel` bounds the
recursion; every step consumes at least one character, so an initial
fuel of the input length is sufficient. -/
def scanAux : Nat → List Char → List (String × String)
  | 0, _ => []
  | _ + 1, [] => []
  | fuel + 1, c :: tl =>
    match tryMatchAt (c :: tl) with
    | some (a, t, rest) => (a, t) :: scanAux fuel rest
    | none => scanAux fuel tl

/-- All `(alt, target)` pairs of `MARKDOWN_IMAGE_PATTERN.findall`. -/
def findallImages (s : String) : List (String × String) :=
  scanAux s.data.length s.data

/-- `ImageHandler.extract_image_paths`: targets of all image matches,
excluding those that start with `http://`, `https://` or `data:`.
(Python returns a set; membership is what the callers consume, so a
list with possible duplicates is an equivalent model.) -/
def extract_image_paths (md : String) : List String :=
  ((findallImages md).map Prod.snd).filter
    (fun p => !(strStartsWith p "http://" || strStartsWith p "https://" ||
                strStartsWith p "data:"))

/-! ## ImageHandler.list_stored_images (lines 213-230) -/

/-- Recognized image extensions (`image_extensions` set). -/
def isImageExt (p : String) : Bool :=
  let e := strToLower (suffixOf p)
  e = ".png" || e = ".jpg" || e = ".jpeg" || e = ".gif" || e = ".webp" ||
    e = ".svg"

/-- `p` is a file directly inside the directory `storage`
(`storage_path.iterdir()` is non-recursive). -/
def isDirectChild (storage p : String) : Bool :=
  strStartsWith p (storage ++ "/") &&
    (let rest := ⟨p.data.drop (storage.data.length + 1)⟩
     rest ≠ "" && !(rest.data.contains '/'))

/-- `ImageHandler.list_stored_images`: the files directly under the
storage directory whose (lower-cased) suffix is a recognized image
extension, in directory-listing order (modelled as `FS` entry
order). -/
def list_stored_images (fs : FS) (storage : String) : List String :=
  (fs.files.map Prod.fst).filter
    (fun p => isDirectChild storage p && isImageExt p)

/-! ## ImageHandler.cleanup_orphaned_images (lines 232-282) -/

/-- The `referenced_normalized` set: for each referenced path both its
`Path(path).resolve()` form and its `Path(path).name`. -/
def normalizedRefs (resolve : String → String) (referenced : List String) :
    List String :=
  referenced.flatMap (fun p => [resolve p, pathName p])

/-- The `is_referenced` test of `cleanup_orphaned_images` for one
stored image. -/
def isReferencedStored (resolve : String → String)
    (referenced norm : List String) (stored : String) : Bool :=
  norm.contains (resolve stored) || norm.contains (pathName stored) ||
    referenced.contains stored

/-- The `for stored_image in self.list_stored_images()` loop:
collects orphans in listing order and (unless `dryRun`) unlinks each
orphan as it is found. -/
def cleanupLoop (resolve : String → String) (referenced norm : List String)
    (dryRun : Bool) : List String → FS → List String × FS
  | [], fs => ([], fs)
  | s :: rest, fs =>
    if isReferencedStored resolve referenced norm s then
      cleanupLoop resolve referenced norm dryRun rest fs
    else
      let fs' := if dryRun then fs else fs.erase s
      let r := cleanupLoop resolve referenced norm dryRun rest fs'
      (s :: r.1, r.2)

/-- `ImageHandler.cleanup_orphaned_images`: returns the orphan list
and the filesystem after the deletions (unchanged when `dryRun`). -/
def cleanup_orphaned_images (resolve : String → String) (fs : FS)
    (storage md : String) (dryRun : Bool) : List String × FS :=
  let referenced := extract_image_paths md
  let norm := normalizedRefs resolve referenced
  cleanupLoop resolve referenced norm dryRun (list_stored_images fs storage) fs

theorem cleanupLoop_safe (resolve : String → String)
    (referenced norm : List String) (dryRun : Bool) (s : String)
    (h : isReferencedStored resolve referenced norm s = true) :
    ∀ (L : List String) (fs : FS),
      s ∉ (cleanupLoop resolve referenced norm dryRun L fs).1 ∧
      (cleanupLoop resolve referenced norm dryRun L fs).2.lookup s =
        fs.lookup s := by
  intro L
  induction L with
  | nil => intro fs; simp [cleanupLoop]
  | cons t rest ih =>
    intro fs
    by_cases ht : isReferencedStored resolve referenced norm t
    · simpa [cleanupLoop, ht] using ih fs
    · have hts : t ≠ s := fun he => ht (he ▸ h)
      have hlk : (if dryRun then fs else fs.erase t).lookup s = fs.lookup s := by
        cases dryRun with
        | false => simpa using FS.lookup_erase_ne fs t s hts
        | true => simp
      have h2 := ih (if dryRun then fs else fs.erase t)
      simp only [cleanupLoop, ht, Bool.false_eq_true, if_false]
      refine ⟨?_, by rw [h2.2, hlk]⟩
      intro hmem
      rcases List.mem_cons.mp hmem with he | hm
      · exact hts he.symm
      · exact h2.1 hm

/-- C2: orphan collection with `dry_run=False` never deletes, and
never reports as orphan, a stored file that the code's reference test
recognizes: its resolved path or bare filename occurs in the
normalized reference set, or its raw path string occurs among the raw
references. -/
theorem cleanup_never_deletes_referenced (resolve : String → String) (fs : FS)
    (storage md s : String)
    (h : isReferencedStored resolve (extract_image_paths md)
           (normalizedRefs resolve (extract_image_paths md)) s = true) :
    s ∉ (cleanup_orphaned_images resolve fs storage md false).1 ∧
    (cleanup_orphaned_images resolve fs storage md false).2.lookup s =
      fs.lookup s := by
  simpa [cleanup_orphaned_images] using
    cleanupLoop_safe resolve (extract_image_paths md)
      (normalizedRefs resolve (extract_image_paths md)) false s h
      (list_stored_images fs storage) fs

theorem cleanup_never_deletes_referenced_witness :
    (isReferencedStored (fun s => s) (extract_image_paths "![a](shot.png)")
        (normalizedRefs (fun s => s) (extract_image_paths "![a](shot.png)"))
        "store/shot.png" = true) ∧
    ("store/shot.png" ∉ (cleanup_orphaned_images (fun s => s)
        ⟨[("store/shot.png", [1]), ("store/old.png", [2])]⟩ "store"
        "![a](shot.png)" false).1 ∧
      (cleanup_orphaned_images (fun s => s)
        ⟨[("store/shot.png", [1]), ("store/old.png", [2])]⟩ "store"
        "![a](shot.png)" false).2.lookup "store/shot.png" =
        FS.lookup ⟨[("store/shot.png", [1]), ("store/old.png", [2])]⟩
          "store/shot.png") := by
  exact ⟨by decide, cleanup_never_deletes_referenced (fun s => s)
    ⟨[("store/shot.png", [1]), ("store/old.png", [2])]⟩ "store"
    "![a](shot.png)" "store/shot.png" (by decide)⟩

theorem cleanupLoop_dry_run (resolve : String → String)
    (referenced norm : List String) :
    ∀ (L : List String) (fs : FS),
      cleanupLoop resolve referenced norm true L fs =
        (L.filter (fun s => !isReferencedStored resolve referenced norm s),
         fs) := by
  intro L
  induction L with
  | nil => intro fs; simp [cleanupLoop]
  | cons t rest ih =>
    intro fs
    by_cases ht : isReferencedStored resolve referenced norm t
    · simp [cleanupLoop, ht, ih fs, List.filter_cons]
    · simp [cleanupLoop, ht, ih fs, List.filter_cons]

/-- C3: orphan collection with `dry_run=True` leaves the store
untouched and returns exactly the stored images (in listing order)
for which neither the resolved path, nor the bare filename, nor the
raw stored path string matches the references in normalized or raw
form. -/
theorem cleanup_dry_run_reports_exactly_orphans (resolve : String → String)
    (fs : FS) (storage md : String) :
    (cleanup_orphaned_images resolve fs storage md true).2 = fs ∧
    (cleanup_orphaned_images resolve fs storage md true).1 =
      (list_stored_images fs storage).filter
        (fun s => !isReferencedStored resolve (extract_image_paths md)
                    (normalizedRefs resolve (extract_image_paths md)) s) := by
  rw [cleanup_orphaned_images]
  rw [cleanupLoop_dry_run resolve (extract_image_paths md)
    (normalizedRefs resolve (extract_image_paths md))
    (list_stored_images fs storage) fs]
  exact ⟨rfl, rfl⟩

/-! ## base64 encoding (standard alphabet, with padding) -/

def b64charAt (n : Nat) : Char :=
  "ABCDEFGHIJKLMNOPQRSTUVWXYZabcdefghijklmnopqrstuvwxyz0123456789+/".data.getD
    n 'A'

/-- `base64.b64encode` over byte lists (three bytes at a time, with
`=` padding). -/
def b64encodeL : List Nat → List Char
  | [] => []
  | [a] => [b64charAt (a / 4 % 64), b64charAt (a % 4 * 16), '=', '=']
  | [a, b] =>
    [b64charAt (a / 4 % 64), b64charAt (a % 4 * 16 + b / 16 % 16),
     b64charAt (b % 16 * 4), '=']
  | a :: b :: c :: rest =>
    b64charAt (a / 4 % 64) :: b64charAt (a % 4 * 16 + b / 16 % 16) ::
      b64charAt (b % 16 * 4 + c / 64 % 4) :: b64charAt (c % 64) ::
      b64encodeL rest

def b64encode (l : List Nat) : String :=
  ⟨b64encodeL l⟩

/-! ## ImageHandler.get_image_as_base64 (lines 166-194) -/

/-- The explicit `mime_types` table of `get_image_as_base64`,
with its `"image/png"` default. -/
def mimeFor (ext : String) : String :=
  if ext = ".png" then "image/png"
  else if ext = ".jpg" then "image/jpeg"
  else if ext = ".jpeg" then "image/jpeg"
  else if ext = ".gif" then "image/gif"
  else if ext = ".webp" then "image/webp"
  else if ext = ".svg" then "image/svg+xml"
  else "image/png"

/-- `ImageHandler.get_image_as_base64`: wraps `get_image`; the guard
`if image_data:` treats empty bytes like a missing file. -/
def get_image_as_base64 (fs : FS) (storage path : String) : Option String :=
  match get_image fs storage path with
  | some b =>
    if b.isEmpty then none
    else
      some ("data:" ++ mimeFor (strToLower (suffixOf path)) ++ ";base64," ++
        b64encode b)
  | none => none

/-- C10: a stored file that exists but is empty is reported by
`get_image` as the empty byte string, yet `get_image_as_base64`
returns `None` for the very same path, as if the file were absent. -/
theorem get_image_as_base64_empty_file (fs : FS) (storage p : String)
    (h : fs.lookup p = some []) :
    get_image fs storage p = some [] ∧
    get_image_as_base64 fs storage p = none := by
  constructor
  · simp [get_image, h]
  · simp [get_image_as_base64, get_image, h]

theorem get_image_as_base64_empty_file_witness :
    (FS.lookup ⟨[("store/e.png", [])]⟩ "store/e.png" = some []) ∧
    get_image ⟨[("store/e.png", [])]⟩ "store" "store/e.png" = some [] ∧
    get_image_as_base64 ⟨[("store/e.png", [])]⟩ "store" "store/e.png" =
      none := by
  exact ⟨by decide,
    get_image_as_base64_empty_file ⟨[("store/e.png", [])]⟩ "store"
      "store/e.png" (by decide)⟩

/-! ## ImageHandler.save_base64_image (lines 94-135) -/

/-- The extension chosen from the data-URI header (`".png"` unless the
header mentions one of the recognized MIME types). -/
def extFromHeader (header : String) : String :=
  if strContainsSub header "image/jpeg" || strContainsSub header "image/jpg"
    then ".jpg"
  else if strContainsSub header "image/gif" then ".gif"
  else if strContainsSub header "image/webp" then ".webp"
  else if strContainsSub header "image/svg" then ".svg"
  else ".png"

/-- `ImageHandler.save_base64_image`.  `b64dec` models
`base64.b64decode`; any failure inside the `try` block — a `data:`
string without a comma (unpacking `ValueError`) or a decode error —
is caught and reported as `none`, with the filesystem untouched. -/
def save_base64_image (hashB : List Nat → String)
    (b64dec : String → Option (List Nat)) (fs : FS) (storage : String)
    (base64_data : String) (filename : Option String) (ts : String) :
    Option String × FS :=
  if strStartsWith base64_data "data:" then
    match splitFirstComma base64_data with
    | none => (none, fs)
    | some (header, payload) =>
      match b64dec payload with
      | none => (none, fs)
      | some bytes =>
        let r := save_image hashB fs storage bytes filename
          (extFromHeader header) ts
        (some r.1, r.2)
  else
    match b64dec base64_data with
    | none => (none, fs)
    | some bytes =>
      let r := save_image hashB fs storage bytes filename ".png" ts
      (some r.1, r.2)

/-- The base64 payload that `save_base64_image` would hand to the
decoder: the part after the first comma for `data:` inputs, the whole
string otherwise; `none` when a `data:` input has no comma. -/
def b64payload (base64_data : String) : Option String :=
  if strStartsWith base64_data "data:" then
    (splitFirstComma base64_data).map Prod.snd
  else some base64_data

/-- C5: whenever the base64 payload of the input fails to decode,
`save_base64_image` returns `None` and writes nothing — the store is
exactly as before. -/
theorem save_base64_image_decode_failure (hashB : List Nat → String)
    (b64dec : String → Option (List Nat)) (fs : FS)
    (storage base64_data : String) (filename : Option String) (ts : String)
    (h : ∀ p : String, b64payload base64_data = some p → b64dec p = none) :
    save_base64_image hashB b64dec fs storage base64_data filename ts =
      (none, fs) := by
  by_cases hd : strStartsWith base64_data "data:"
  · rcases hs : splitFirstComma base64_data with _ | ⟨header, payload⟩
    · simp [save_base64_image, hd, hs]
    · have hp : b64dec payload = none := by
        apply h
        simp [b64payload, hd, hs]
      simp [save_base64_image, hd, hs, hp]
  · have hp : b64dec base64_data = none := by
      apply h
      simp [b64payload, hd]
    simp [save_base64_image, hd, hp]

theorem save_base64_image_decode_failure_witness :
    (∀ p : String,
      b64payload "data:image/jpeg;base64,not-base64!!" = some p →
        (fun _ : String => (none : Option (List Nat))) p = none) ∧
    save_base64_image (fun _ => "") (fun _ => none) FS.empty "store"
      "data:image/jpeg;base64,not-base64!!" none "20240101_120000" =
      (none, FS.empty) := by
  exact ⟨fun _ _ => rfl,
    save_base64_image_decode_failure (fun _ => "") (fun _ => none) FS.empty
      "store" "data:image/jpeg;base64,not-base64!!" none "20240101_120000"
      (fun _ _ => rfl)⟩

/-! ## __init__._save_image (init file, lines 207-257) -/

/-- The extension `_save_image` picks: the suggested filename's
suffix, defaulting to `".png"` when the filename is empty or has no
suffix. -/
def hostExt (filename : String) : String :=
  let ext := if filename = "" then ".png" else suffixOf filename
  if ext = "" then ".png" else ext

/-- The payload `_save_image` decodes: the part after the first comma
when the input contains one, else the input itself. -/
def stripAfterComma (base64_data : String) : String :=
  match splitFirstComma base64_data with
  | some pr => pr.2
  | none => base64_data

/-- `_save_image` from `__init__.py`: host-side save of an editor
upload.  Names the file `img_<hash8><ext>` from the first eight hex
digits of the payload's MD5 digest; `none` on decode failure. -/
def _save_image (hashB : List Nat → String)
    (b64dec : String → Option (List Nat)) (fs : FS)
    (base64_data upload_path filename : String) : Option String × FS :=
  match b64dec (stripAfterComma base64_data) with
  | none => (none, fs)
  | some bytes =>
    let unique := "img_" ++ strTake 8 (hashB bytes) ++ hostExt filename
    let path := pathJoin upload_path unique
    (some path, fs.write path bytes)

/-- C9: `_save_image` names files `img_<8 digest chars><ext>` with the
extension taken from the suggested filename (default `".png"`) and no
timestamp component; two calls whose payloads decode to the same bytes
under the same upload path and filename return the same path. -/
theorem _save_image_content_addressed (hashB : List Nat → String)
    (b64dec : String → Option (List Nat)) (fs₁ fs₂ : FS)
    (d₁ d₂ upload_path filename : String) (B : List Nat)
    (h₁ : b64dec (stripAfterComma d₁) = some B)
    (h₂ : b64dec (stripAfterComma d₂) = some B) :
    (_save_image hashB b64dec fs₁ d₁ upload_path filename).1 =
      some (pathJoin upload_path
        ("img_" ++ strTake 8 (hashB B) ++ hostExt filename)) ∧
    (_save_image hashB b64dec fs₂ d₂ upload_path filename).1 =
      (_save_image hashB b64dec fs₁ d₁ upload_path filename).1 := by
  simp [_save_image, h₁, h₂]

theorem _save_image_content_addressed_witness :
    ((fun _ : String => some [1, 2, 3]) (stripAfterComma "hdr,AAAA") =
        some [1, 2, 3]) ∧
    ((fun _ : String => some [1, 2, 3]) (stripAfterComma "AAAA") =
        some [1, 2, 3]) ∧
    (_save_image (fun _ => "0123456789abcdef0123456789abcdef")
        (fun _ => some [1, 2, 3]) FS.empty "hdr,AAAA" "up" "shot.jpeg").1 =
      some (pathJoin "up"
        ("img_" ++ strTake 8 ((fun _ : List Nat =>
          "0123456789abcdef0123456789abcdef") [1, 2, 3]) ++
          hostExt "shot.jpeg")) ∧
    (_save_image (fun _ => "0123456789abcdef0123456789abcdef")
        (fun _ => some [1, 2, 3]) FS.empty "AAAA" "up" "shot.jpeg").1 =
      (_save_image (fun _ => "0123456789abcdef0123456789abcdef")
        (fun _ => some [1, 2, 3]) FS.empty "hdr,AAAA" "up" "shot.jpeg").1 := by
  refine ⟨rfl, rfl, ?_⟩
  exact _save_image_content_addressed
    (fun _ => "0123456789abcdef0123456789abcdef") (fun _ => some [1, 2, 3])
    FS.empty FS.empty "hdr,AAAA" "AAAA" "up" "shot.jpeg" [1, 2, 3] rfl rfl

/-! ## __init__._convert_images_to_base64 (lines 263-312) -/

/-- The replacement function of the `re.sub` call: skip data/remote
URLs; inline an existing local file as a data URI (MIME type from
`mimetypes.guess_type`, modelled by the parameter `guessMime`,
defaulting to `image/png`); on any failure keep the original match
text. -/
def replaceWithBase64 (guessMime : String → Option String) (fs : FS)
    (alt target : String) : String :=
  if strStartsWith target "data:" || strStartsWith target "http://" ||
      strStartsWith target "https://" then
    "![" ++ alt ++ "](" ++ target ++ ")"
  else
    match fs.lookup target with
    | some bytes =>
      let mime := (guessMime target).getD "image/png"
      "![" ++ alt ++ "](data:" ++ mime ++ ";base64," ++ b64encode bytes ++ ")"
    | none => "![" ++ alt ++ "](" ++ target ++ ")"

/-- `re.sub` with a replacement function: the same left-to-right
non-overlapping scan as `findallImages`, emitting replacement text for
matches and copying other characters through. -/
def subAux (f : String → String → String) : Nat → List Char → List Char
  | 0, l => l
  | _ + 1, [] => []
  | fuel + 1, c :: tl =>
    match tryMatchAt (c :: tl) with
    | some (a, t, rest) => (f a t).data ++ subAux f fuel rest
    | none => c :: subAux f fuel tl

/-- `_convert_images_to_base64` from `__init__.py`. -/
def _convert_images_to_base64 (guessMime : String → Option String) (fs : FS)
    (content : String) : String :=
  if content = "" then content
  else ⟨subAux (replaceWithBase64 guessMime fs) content.data.length
    content.data⟩

/-! ## st_markdown render cache (init file, lines 21-23 and 142-160)

The cache-and-transmission fragment of `st_markdown`: the module
globals `_image_conversion_cache` and `_last_sent_default` become the
two fields of `RenderState`; `hashS` models
`hashlib.md5(value.encode("utf-8")).hexdigest()`. -/

structure RenderState where
  conv : List (String × String × String)
  lastSent : List (String × String)
deriving DecidableEq

structure StepResult where
  sendDefault : Option String
  preview : String
  state : RenderState
deriving DecidableEq

/-- `cache_key = key or "__default__"`. -/
def cacheKeyOf : Option String → String
  | none => "__default__"
  | some k => if k = "" then "__default__" else k

/-- Lines 146-151: the conversion cache check.  Returns the preview
value and the updated `_image_conversion_cache`. -/
def convPart (guessMime : String → Option String) (fs : FS)
    (ck vh value : String) (conv : List (String × String × String)) :
    String × List (String × String × String) :=
  let fresh := if value = "" then value
               else _convert_images_to_base64 guessMime fs value
  match lookupKV conv ck with
  | some hc => if hc.1 = vh then (hc.2, conv)
               else (fresh, (ck, vh, fresh) :: conv)
  | none => (fresh, (ck, vh, fresh) :: conv)

/-- Lines 153-160: the transmission-suppression check.  Returns
`defaultValue` (`none` means suppressed) and the updated
`_last_sent_default`. -/
def sendPart (ck vh preview : String) (lastSent : List (String × String)) :
    Option String × List (String × String) :=
  match lookupKV lastSent ck with
  | some h => if h = vh then (none, lastSent)
              else (some preview, (ck, vh) :: lastSent)
  | none => (some preview, (ck, vh) :: lastSent)

/-- The cache/transmission fragment of `st_markdown` (lines 142-160):
one render cycle for instance `key` with raw text `value`. -/
def st_markdown_step (hashS : String → String)
    (guessMime : String → Option String) (fs : FS) (key : Option String)
    (value : String) (st : RenderState) : StepResult :=
  let ck := cacheKeyOf key
  let vh := hashS value
  let pc := convPart guessMime fs ck vh value st.conv
  let sl := sendPart ck vh pc.1 st.lastSent
  ⟨sl.1, pc.1, ⟨pc.2, sl.2⟩⟩

theorem convert_images_empty (guessMime : String → Option String) (fs : FS) :
    _convert_images_to_base64 guessMime fs "" = "" := rfl

/-- C6: for a fresh instance identifier, the transmission check
returns content on the first call with text `T`, suppresses on an
immediately repeated call with the identical `T`, and returns content
again on a subsequent call with a mutated text `T'` (one whose digest
differs). -/
theorem st_markdown_step_suppression (hashS : String → String)
    (guessMime : String → Option String) (fs : FS) (key : Option String)
    (T T' : String) (st : RenderState)
    (hfresh : lookupKV st.lastSent (cacheKeyOf key) = none)
    (hne : hashS T ≠ hashS T') :
    (st_markdown_step hashS guessMime fs key T st).sendDefault =
      some (st_markdown_step hashS guessMime fs key T st).preview ∧
    (st_markdown_step hashS guessMime fs key T
        (st_markdown_step hashS guessMime fs key T st).state).sendDefault =
      none ∧
    (st_markdown_step hashS guessMime fs key T'
        (st_markdown_step hashS guessMime fs key T
          (st_markdown_step hashS guessMime fs key T st).state).state
      ).sendDefault =
      some (st_markdown_step hashS guessMime fs key T'
        (st_markdown_step hashS guessMime fs key T
          (st_markdown_step hashS guessMime fs key T st).state).state
      ).preview := by
  have hne' : hashS T' ≠ hashS T := fun he => hne he.symm
  refine ⟨?_, ?_, ?_⟩
  · simp [st_markdown_step, sendPart, hfresh]
  · simp [st_markdown_step, sendPart, hfresh, lookupKV]
  · simp [st_markdown_step, sendPart, hfresh, lookupKV, hne, hne']

theorem st_markdown_step_suppression_witness :
    (lookupKV (RenderState.mk [] []).lastSent (cacheKeyOf none) = none ∧
      (fun s : String => s) "a" ≠ (fun s : String => s) "b") ∧
    ((st_markdown_step (fun s => s) (fun _ => none) FS.empty none "a"
        ⟨[], []⟩).sendDefault =
      some (st_markdown_step (fun s => s) (fun _ => none) FS.empty none "a"
        ⟨[], []⟩).preview ∧
    (st_markdown_step (fun s => s) (fun _ => none) FS.empty none "a"
        (st_markdown_step (fun s => s) (fun _ => none) FS.empty none "a"
          ⟨[], []⟩).state).sendDefault = none ∧
    (st_markdown_step (fun s => s) (fun _ => none) FS.empty none "b"
        (st_markdown_step (fun s => s) (fun _ => none) FS.empty none "a"
          (st_markdown_step (fun s => s) (fun _ => none) FS.empty none "a"
            ⟨[], []⟩).state).state).sendDefault =
      some (st_markdown_step (fun s => s) (fun _ => none) FS.empty none "b"
        (st_markdown_step (fun s => s) (fun _ => none) FS.empty none "a"
          (st_markdown_step (fun s => s) (fun _ => none) FS.empty none "a"
            ⟨[], []⟩).state).state).preview) := by
  exact ⟨⟨rfl, by decide⟩,
    st_markdown_step_suppression (fun s => s) (fun _ => none) FS.empty none
      "a" "b" ⟨[], []⟩ rfl (by decide)⟩

/-- C7: the render step returns the cached converted text exactly when
the stored digest for the instance equals the digest of the raw text;
otherwise it computes the conversion, pushes the new
`(digest, converted)` entry for the instance, and returns the new
conversion. -/
theorem st_markdown_step_conversion_cache (hashS : String → String)
    (guessMime : String → Option String) (fs : FS) (key : Option String)
    (value : String) (st : RenderState) :
    (match lookupKV st.conv (cacheKeyOf key) with
     | some hc =>
       if hc.1 = hashS value then
         (st_markdown_step hashS guessMime fs key value st).preview = hc.2 ∧
         (st_markdown_step hashS guessMime fs key value st).state.conv =
           st.conv
       else
         (st_markdown_step hashS guessMime fs key value st).preview =
           _convert_images_to_base64 guessMime fs value ∧
         (st_markdown_step hashS guessMime fs key value st).state.conv =
           (cacheKeyOf key, hashS value,
             _convert_images_to_base64 guessMime fs value) :: st.conv
     | none =>
       (st_markdown_step hashS guessMime fs key value st).preview =
         _convert_images_to_base64 guessMime fs value ∧
       (st_markdown_step hashS guessMime fs key value st).state.conv =
         (cacheKeyOf key, hashS value,
           _convert_images_to_base64 guessMime fs value) :: st.conv) := by
  have hfresh : (if value = "" then value
      else _convert_images_to_base64 guessMime fs value) =
      _convert_images_to_base64 guessMime fs value := by
    by_cases hv : value = ""
    · simp [hv, convert_images_empty]
    · simp [hv]
  rcases hc : lookupKV st.conv (cacheKeyOf key) with _ | ⟨h, c⟩
  · simp [st_markdown_step, convPart, hc, hfresh]
  · by_cases hh : h = hashS value
    · simp [hc, hh, st_markdown_step, convPart]
    · simp [hc, hh, st_markdown_step, convPart, hfresh]

/-! ## Default-naming analysis for save_image (claims C1 and C4)

`hashlib.md5` is an external library call, so the embedding is
parametric in the digest function; `md5stub` is a concrete 32-hex-char
stand-in used only to evaluate the model at specific inputs. -/

def md5stub : List Nat → String :=
  fun _ => "0123456789abcdef0123456789abcdef"

def isLowerHexDigit (c : Char) : Bool :=
  c.isDigit || ('a' ≤ c && c ≤ 'f')

/-- Modelled from the spec: a filename of the claimed content-addressed
form `img_<12 hex digits>.png`, with no timestamp component. -/
def isContentHashNamePng (s : String) : Bool :=
  strStartsWith s "img_" && s.data.length = 20 &&
    ((s.data.drop 4).take 12).all isLowerHexDigit &&
    (⟨s.data.drop 16⟩ : String) = ".png"

/-- Counterexample to C1 as stated: with the default (filename
omitted) naming policy the generated name embeds the formatted
timestamp, so two saves of the same payload and extension at different
clock readings return different paths. -/
theorem save_image_second_save_differs :
    (save_image md5stub FS.empty "store" [1] none ".png"
        "20240101_120000").1 ≠
    (save_image md5stub
        (save_image md5stub FS.empty "store" [1] none ".png"
          "20240101_120000").2
        "store" [1] none ".png" "20240101_120001").1 := by
  decide

/-- C1 amended: saving the same bytes twice with the default naming
policy yields the same path, and leaves the store identical, whenever
the two calls observe the same formatted timestamp — the filename is
deterministic in (timestamp, content digest, extension) and the second
write replaces the first file in place. -/
theorem save_image_idempotent_same_timestamp (hashB : List Nat → String)
    (fs : FS) (storage : String) (P : List Nat) (ext ts : String) :
    (save_image hashB (save_image hashB fs storage P none ext ts).2
        storage P none ext ts).1 =
      (save_image hashB fs storage P none ext ts).1 ∧
    (save_image hashB (save_image hashB fs storage P none ext ts).2
        storage P none ext ts).2 =
      (save_image hashB fs storage P none ext ts).2 := by
  constructor
  · rfl
  · simp [save_image, FS.write_write]

/-- Counterexample to C4 as stated: the file produced by a
filename-omitted save is named `img_<timestamp>_<12 digest chars>.png`,
which does not have the claimed `img_<12-hex>.png` shape. -/
theorem save_image_name_has_timestamp :
    pathName (save_image md5stub FS.empty "store" [137, 80, 78, 71] none
        ".png" "20240101_120000").1 =
      "img_20240101_120000_0123456789ab.png" ∧
    isContentHashNamePng "img_20240101_120000_0123456789ab.png" = false := by
  decide

theorem splitSlash_no_slash (l : List Char) (h : ∀ c ∈ l, c ≠ '/') :
    splitSlash l = [l] := by
  induction l with
  | nil => rfl
  | cons c tl ih =>
    have hc : c ≠ '/' := h c (List.mem_cons_self c tl)
    have ih' := ih (fun x hx => h x (List.mem_cons_of_mem c hx))
    simp [splitSlash, hc, ih']

theorem takeAfterLastDot_no_dot (l : List Char) (h : ∀ c ∈ l, c ≠ '.') :
    takeAfterLastDot l = none := by
  induction l with
  | nil => rfl
  | cons c tl ih =>
    have hc : c ≠ '.' := h c (List.mem_cons_self c tl)
    have ih' := ih (fun x hx => h x (List.mem_cons_of_mem c hx))
    simp [takeAfterLastDot, ih', hc]

theorem takeAfterLastDot_append (xs l s : List Char)
    (h : takeAfterLastDot l = some s) :
    takeAfterLastDot (xs ++ l) = some s := by
  induction xs with
  | nil => simpa using h
  | cons c tl ih => simp [takeAfterLastDot, ih]

theorem takeAfterLastDot_final (ys : List Char) (h : ∀ c ∈ ys, c ≠ '.') :
    takeAfterLastDot ('.' :: ys) = some ('.' :: ys) := by
  simp [takeAfterLastDot, takeAfterLastDot_no_dot ys h]

theorem suffixOfL_slashfree_png (xs : List Char) (hne : xs ≠ [])
    (h : ∀ c ∈ xs, c ≠ '/') :
    suffixOfL (xs ++ ".png".data) = ".png".data := by
  have hpng : ∀ c ∈ ".png".data, c ≠ '/' := by decide
  have hslash : ∀ c ∈ xs ++ ".png".data, c ≠ '/' := by
    intro c hc
    rcases List.mem_append.mp hc with hx | hx
    · exact h c hx
    · exact hpng c hx
  have hsplit := splitSlash_no_slash (xs ++ ".png".data) hslash
  have hlen : 4 ≤ (xs ++ ".png".data).length := by
    simp [List.length_append]
  have hne0 : ¬(xs ++ ".png".data) = [] := by
    intro hcon
    rw [hcon] at hlen
    simp at hlen
  have hne1 : ¬(xs ++ ".png".data) = ['.'] := by
    intro hcon
    rw [hcon] at hlen
    simp at hlen
  have hname : pathNameL (xs ++ ".png".data) = xs ++ ".png".data := by
    simp [pathNameL, hsplit, List.filter, hne0, hne1]
  have hdot : takeAfterLastDot (xs ++ ".png".data) =
      some ('.' :: 'p' :: 'n' :: 'g' :: []) := by
    have : takeAfterLastDot ('.' :: 'p' :: 'n' :: 'g' :: []) =
        some ('.' :: 'p' :: 'n' :: 'g' :: []) := by decide
    exact takeAfterLastDot_append xs _ _ this
  have hxs : 0 < xs.length := List.length_pos.mpr hne
  rw [suffixOfL]
  simp only [hname, hdot]
  have hcond : ('.' :: 'p' :: 'n' :: 'g' :: []).length <
      (xs ++ ".png".data).length ∧
      1 < ('.' :: 'p' :: 'n' :: 'g' :: []).length := by
    constructor
    · simp [List.length_append]
      omega
    · decide
  rw [if_pos hcond]

/-- C4 amended: starting from any store state, a filename-omitted save
of payload `P` with extension `".png"` returns the path
`storage / ("img_" ++ timestamp ++ "_" ++ digest[:12] ++ ".png")` —
the versioned, timestamped name — and that exact path then holds
exactly the original bytes.  (The timestamp and digest strings contain
no `'/'`, as `strftime("%Y%m%d_%H%M%S")` and `hexdigest()` guarantee.) -/
theorem save_image_writes_timestamped_file (hashB : List Nat → String)
    (fs : FS) (storage : String) (P : List Nat) (ts : String)
    (hts : ∀ c ∈ ts.data, c ≠ '/')
    (hhash : ∀ c ∈ (hashB P).data, c ≠ '/') :
    (save_image hashB fs storage P none ".png" ts).1 =
      pathJoin storage
        ("img_" ++ ts ++ "_" ++ strTake 12 (hashB P) ++ ".png") ∧
    (save_image hashB fs storage P none ".png" ts).2.lookup
        (pathJoin storage
          ("img_" ++ ts ++ "_" ++ strTake 12 (hashB P) ++ ".png")) =
      some P := by
  have hdata : ("img_" ++ ts ++ "_" ++ strTake 12 (hashB P) ++ ".png").data =
      ("img_".data ++ ts.data ++ "_".data ++ (hashB P).data.take 12) ++
        ".png".data := by
    simp [String.data_append, strTake]
  have hxs_ne : ("img_".data ++ ts.data ++ "_".data ++
      (hashB P).data.take 12) ≠ [] := by
    intro hcon
    have hlen := congrArg List.length hcon
    have h4 : ("img_".data).length = 4 := rfl
    simp [List.length_append, h4] at hlen
  have hxs_slash : ∀ c ∈ ("img_".data ++ ts.data ++ "_".data ++
      (hashB P).data.take 12), c ≠ '/' := by
    intro c hc
    have himg : ∀ c ∈ "img_".data, c ≠ '/' := by decide
    have hund : ∀ c ∈ "_".data, c ≠ '/' := by decide
    rcases List.mem_append.mp hc with hc1 | hc4
    · rcases List.mem_append.mp hc1 with hc2 | hc3
      · rcases List.mem_append.mp hc2 with hc5 | hc6
        · exact himg c hc5
        · exact hts c hc6
      · exact hund c hc3
    · exact hhash c (List.take_subset 12 (hashB P).data hc4)
  have hsuffix : suffixOf
      ("img_" ++ ts ++ "_" ++ strTake 12 (hashB P) ++ ".png") = ".png" := by
    apply String.ext
    show suffixOfL
      ("img_" ++ ts ++ "_" ++ strTake 12 (hashB P) ++ ".png").data =
      ".png".data
    rw [hdata]
    exact suffixOfL_slashfree_png _ hxs_ne hxs_slash
  constructor
  · simp [save_image, hsuffix]
  · simp [save_image, hsuffix, lookupKV_write_self]

theorem save_image_writes_timestamped_file_witness :
    ((∀ c ∈ ("20240101_120000" : String).data, c ≠ '/') ∧
      (∀ c ∈ (md5stub [137, 80, 78, 71]).data, c ≠ '/')) ∧
    ((save_image md5stub FS.empty "store" [137, 80, 78, 71] none ".png"
        "20240101_120000").1 =
      pathJoin "store"
        ("img_" ++ "20240101_120000" ++ "_" ++
          strTake 12 (md5stub [137, 80, 78, 71]) ++ ".png") ∧
    (save_image md5stub FS.empty "store" [137, 80, 78, 71] none ".png"
        "20240101_120000").2.lookup
        (pathJoin "store"
          ("img_" ++ "20240101_120000" ++ "_" ++
            strTake 12 (md5stub [137, 80, 78, 71]) ++ ".png")) =
      some [137, 80, 78, 71]) := by
  exact ⟨⟨by decide, by decide⟩,
    save_image_writes_timestamped_file md5stub FS.empty "store"
      [137, 80, 78, 71] "20240101_120000" (by decide) (by decide)⟩

/-- C8: for every byte payload, loading the path returned by saving it
under content-addressed (filename-omitted) naming returns exactly the
payload: `load(save(P)) == P`. -/
theorem get_image_save_image_roundtrip (hashB : List Nat → String) (fs : FS)
    (storage : String) (P : List Nat) (ts : String) :
    get_image (save_image hashB fs storage P none ".png" ts).2 storage
      (save_image hashB fs storage P none ".png" ts).1 = some P := by
  simp [save_image, get_image, lookupKV_write_self]
